import Mathlib

/-!
Verification of the behaviour-recognition drone application's inference core.

This file gives a shallow embedding of the parts of the repository that the
specification talks about:

* `utils.py` — constants, the recording folder and the unique-filename scheme;
* `pose_detector.py` — `PoseDetector.extract_keypoints` and the rolling
  keypoint sequence;
* `inference.py` — `predict_pose`, `has_valid_pose`, `predict_action`,
  `track_person`, `non_tracking_inference`, `tracking_inference`;
* `stream_thread.py` — `StreamWorker.run`, modelled as a fold over a list of
  per-frame inputs producing a trace of emitted events.

External collaborators (mediapipe, the LSTM classifier, the YOLO detector,
OpenCV, the filesystem) are modelled as per-frame oracle inputs with the
interface shape the code relies on, while every piece of logic that lives in
this repository is translated statement by statement from the Python source.
Numeric values carried by frames, keypoints and detection boxes are modelled
as rationals; Python's `int(...)` truncation and list/array slicing are given
explicit executable models (`pyInt`, `pySliceList`).
-/

namespace BehaviourRecognition

/-! ### utils.py: constants -/

/-- utils.py: `SEQUENCE_LENGTH = 30`. -/
def SEQUENCE_LENGTH : ℕ := 30

/-- utils.py: `RECORDING_PATH = 'behaviour_recognition_recordings'`. -/
def RECORDING_PATH : String := "behaviour_recognition_recordings"

/-- utils.py: the values of the dict
`ACTIONS = {0: 'Running', 1: 'Punching', 2: 'Waving', 3: 'Kicking', 4: 'Walking'}`,
listed in key order. -/
def actionsList : List String := ["Running", "Punching", "Waving", "Kicking", "Walking"]

/-- utils.py: `ACTIONS[i]` as an optional lookup (a Python dict access that
raises `KeyError` outside the domain is modelled as `none`). -/
def ACTIONS (i : ℕ) : Option String := actionsList.get? i

/-- utils.py: `MAL_ACTIONS = ['Punching', 'Kicking']`. -/
def MAL_ACTIONS : List String := ["Punching", "Kicking"]

/-! ### Python primitives used by the code -/

/-- Python `int(q)` on a float/tensor value: truncation toward zero. -/
def pyInt (q : ℚ) : ℤ := if 0 ≤ q then ⌊q⌋ else -⌊-q⌋

/-- Normalisation of one slice index, as Python does for `l[a:b]`:
negative indices count from the end, then the index is clamped to `[0, n]`. -/
def pyIdx (n : ℕ) (i : ℤ) : ℕ := if i < 0 then ((n : ℤ) + i).toNat else min i.toNat n

/-- Python / numpy basic slicing `l[a:b]` on one axis. -/
def pySliceList {α : Type} (l : List α) (a b : ℤ) : List α :=
  (l.take (pyIdx l.length b)).drop (pyIdx l.length a)

/-- A video frame: a 2-dimensional array of (abstract, rational) pixel data. -/
abbrev Frame := List (List ℚ)

/-- numpy 2-d slice `frame[y0:y1, x0:x1]`, as used for the region of interest. -/
def npSlice2 (frame : Frame) (y0 y1 x0 x1 : ℤ) : Frame :=
  (pySliceList frame y0 y1).map fun row => pySliceList row x0 x1

/-! ### pose_detector.py -/

/-- One mediapipe pose landmark, fields `x`, `y`, `z`, `visibility`. -/
structure Landmark where
  x : ℚ
  y : ℚ
  z : ℚ
  visibility : ℚ
deriving DecidableEq

/-- The flattened keypoint vector produced for one frame. -/
abbrev Keypoints := List ℚ

/-- pose_detector.py `PoseDetector.extract_keypoints`: flatten the landmark
list to `[x, y, z, visibility]` per landmark when `results.pose_landmarks`
is present, otherwise `np.zeros(33*4)`.  The mediapipe result object is
modelled as `Option (List Landmark)` (`none` = no `pose_landmarks`). -/
def extract_keypoints (results : Option (List Landmark)) : Keypoints :=
  match results with
  | some lms => (lms.map fun r => [r.x, r.y, r.z, r.visibility]).flatten
  | none => List.replicate (33 * 4) 0

/-! ### inference.py -/

/-- inference.py `predict_pose` lines 125–126:
`detector.sequence.append(keypoints); detector.sequence = detector.sequence[-SEQUENCE_LENGTH:]`.
`l[-n:]` is the last `n` elements of `l` (all of `l` when shorter). -/
def pushWindow (sequence : List Keypoints) (keypoints : Keypoints) : List Keypoints :=
  (sequence ++ [keypoints]).drop ((sequence ++ [keypoints]).length - SEQUENCE_LENGTH)

/-- inference.py `predict_pose`: run the pose model on the frame (the model
output is the oracle input `results`), extract keypoints, append them to the
rolling sequence and keep only the last `SEQUENCE_LENGTH` entries.  Returns
`(keypoints, updated_sequence)` as the Python function does; the sequence is
passed explicitly instead of living inside the mutable detector object. -/
def predict_pose (results : Option (List Landmark)) (sequence : List Keypoints) :
    Keypoints × List Keypoints :=
  let keypoints := extract_keypoints results
  (keypoints, pushWindow sequence keypoints)

/-- inference.py `has_valid_pose`:
`return sum(keypoints) != 0 and len(sequence) == SEQUENCE_LENGTH`. -/
def has_valid_pose (keypoints : Keypoints) (sequence : List Keypoints) : Bool :=
  decide (keypoints.sum ≠ 0) && decide (sequence.length = SEQUENCE_LENGTH)

/-- numpy `np.argmax` over a score list: the index of the first occurrence of
the maximum value (numpy documents that ties return the first occurrence).
Modelled as `indexOf` of the fold-maximum; `np.argmax` of an empty array is an
error, modelled by the (never used) default `0`. -/
def npArgmax (l : List ℚ) : ℕ :=
  match l with
  | [] => 0
  | x :: xs => (x :: xs).indexOf (List.foldr max x xs)

/-- inference.py `predict_action`: `res` is the classifier's score vector for
the current window (`detector.new_model.predict(...)[0]`, an oracle input);
the function returns `(ACTIONS[np.argmax(res)], res[np.argmax(res)])`.
An out-of-range dict or array access (impossible for the real 5-way
classifier) is modelled as `none`. -/
def predict_action (res : List ℚ) : Option (String × ℚ) :=
  match ACTIONS (npArgmax res), res.get? (npArgmax res) with
  | some action, some probability => some (action, probability)
  | _, _ => none

/-- inference.py `ActionDetectorResult`. -/
structure ActionDetectorResult where
  action : String
  probability : ℚ
deriving DecidableEq

/-- One detection candidate as the YOLO model reports it: the
`boxes.xywh[0]` row (centre x, centre y, width, height) together with the
`boxes.data[0][4]` entry the code reads the id from. -/
structure Detection where
  cx : ℚ
  cy : ℚ
  w : ℚ
  h : ℚ
  dataId : ℚ
deriving DecidableEq

/-- inference.py `TrackingResult`. -/
structure TrackingResult where
  x : ℤ
  y : ℤ
  w : ℤ
  h : ℤ
  id : ℤ
  roi : Frame
deriving DecidableEq

/-- inference.py `track_person`: the detector's candidate list for this frame
is the oracle input `dets`.  With no candidate the function returns `None`;
otherwise it uses only the first candidate, converts its centre-based box to
top-left origin with `x = int(cx - w/2)`, `y = int(cy - h/2)`, and crops
`roi = frame[y:y+h, x:x+w]`. -/
def track_person (frame : Frame) (dets : List Detection) : Option TrackingResult :=
  match dets with
  | [] => none
  | d :: _ =>
    let x := pyInt (d.cx - d.w / 2)
    let y := pyInt (d.cy - d.h / 2)
    let w := pyInt d.w
    let h := pyInt d.h
    some ⟨x, y, w, h, pyInt d.dataId, npSlice2 frame y (y + h) x (x + w)⟩

/-- inference.py `non_tracking_inference`: pose estimation on the full frame,
then action classification when `has_valid_pose` holds.  `results` is the
pose model's output for this frame and `res` the action model's score vector;
the updated rolling sequence is returned alongside. -/
def non_tracking_inference (results : Option (List Landmark)) (res : List ℚ)
    (sequence : List Keypoints) : Option ActionDetectorResult × List Keypoints :=
  let p := predict_pose results sequence
  if has_valid_pose p.1 p.2 then
    match predict_action res with
    | some (action, probability) => (some ⟨action, probability⟩, p.2)
    | none => (none, p.2)
  else
    (none, p.2)

/-- inference.py `tracking_inference`: human tracking first; on a tracking
miss the function returns `(None, None)` with the rolling sequence untouched.
Otherwise pose estimation runs on the cropped region of interest (`results`
is the pose model's output on that crop) and, when `has_valid_pose` holds,
the action classifier runs.  The Python function returns the pair
`(tracking_result, action_result)` where both components are `None` together
or present together; this is modelled as one `Option` of the pair. -/
def tracking_inference (frame : Frame) (dets : List Detection)
    (results : Option (List Landmark)) (res : List ℚ) (sequence : List Keypoints) :
    Option (TrackingResult × ActionDetectorResult) × List Keypoints :=
  match track_person frame dets with
  | none => (none, sequence)
  | some tr =>
    let p := predict_pose results sequence
    if has_valid_pose p.1 p.2 then
      match predict_action res with
      | some (action, probability) => (some (tr, ⟨action, probability⟩), p.2)
      | none => (none, p.2)
    else
      (none, p.2)

/-! ### utils.py: recording folder and unique filenames -/

/-- utils.py `get_recording_folder`: `os.makedirs(path, exist_ok=True)` then
return the path.  The filesystem's directory set is modelled as a list of
names; the function returns the path together with the updated set. -/
def get_recording_folder (dirs : List String) : String × List String :=
  (RECORDING_PATH, if RECORDING_PATH ∈ dirs then dirs else RECORDING_PATH :: dirs)

/-- The candidate filename (without extension) tried at step `k` by
`get_unique_filename`: the bare `stream_type` first, then
`stream_type + "_" + str(k)` for `k ≥ 1`. -/
def candName (stream_type : String) (k : ℕ) : String :=
  if k = 0 then stream_type else stream_type ++ "_" ++ toString k

/-- utils.py `get_unique_filename`, the `while os.path.exists(...)` loop.
`ex` is the filesystem's `os.path.exists` oracle.  The Python loop has no
bound; a fuel parameter makes the (possible) divergence explicit: `none`
means the loop did not finish within `fuel` iterations. -/
def gutf_loop (ex : String → Bool) (path stream_type extension : String) :
    String → ℕ → ℕ → Option String
  | _, _, 0 => none
  | result, count, fuel + 1 =>
    if ex (path ++ "/" ++ result ++ extension) then
      gutf_loop ex path stream_type extension (stream_type ++ "_" ++ toString count)
        (count + 1) fuel
    else
      some (result ++ extension)

/-- utils.py `get_unique_filename`: create/fetch the recording folder, then
probe `stream_type`, `stream_type_1`, `stream_type_2`, … until a name with no
existing file is found, and return it with the extension appended. -/
def get_unique_filename (ex : String → Bool) (dirs : List String)
    (stream_type extension : String) (fuel : ℕ) : Option String :=
  gutf_loop ex (get_recording_folder dirs).1 stream_type extension stream_type 1 fuel

/-! ### stream_thread.py: the StreamWorker session loop -/

/-- The oracle inputs one loop iteration consumes: the `next_frame` outcome,
the display frame, the YOLO detections, the mediapipe pose result, the action
model's 5-way score vector, and whether `waitKey` reports the quit key.
`hres` records the fixed output shape of the action classifier (a 5-class
head, one score per entry of `ACTIONS`). -/
structure FrameInput where
  hasFrame : Bool
  frame : Frame
  dets : List Detection
  pose : Option (List Landmark)
  res : List ℚ
  hres : res.length = 5
  quit : Bool

/-- How one session run ended.  `running` means the supplied finite input
list was exhausted with the loop still live. -/
inductive Outcome where
  | running
  | quitExit
  | noFrameError
  | configError
deriving DecidableEq

/-- Observable result of one session run: the alert events (frame index,
identity, action label) in emission order, the final `mal_people` list and
rolling sequence, how many frames were pulled from the source, whether the
post-loop cleanup (recorder release, source exit, window teardown) ran,
whether the `complete` signal was emitted, and the outcome. -/
structure RunResult where
  alerts : List (ℕ × ℤ × String)
  malPeople : List ℤ
  seq : List Keypoints
  framesPulled : ℕ
  cleanupRan : Bool
  completeEmitted : Bool
  outcome : Outcome
deriving DecidableEq

/-- stream_thread.py lines 110–112: the alert decision for one frame in
tracking mode.  Given the inference result, append the identity to
`mal_people` and emit an alert iff the action is malicious and the identity
is novel. -/
def alertStep (r : Option (TrackingResult × ActionDetectorResult)) (idx : ℕ)
    (mal : List ℤ) (alerts : List (ℕ × ℤ × String)) :
    List ℤ × List (ℕ × ℤ × String) :=
  match r with
  | some (tr, ar) =>
    if ar.action ∈ MAL_ACTIONS ∧ tr.id ∉ mal then
      (mal ++ [tr.id], alerts ++ [(idx, tr.id, ar.action)])
    else
      (mal, alerts)
  | none => (mal, alerts)

/-- stream_thread.py `StreamWorker.run`, the `while True` loop (lines
91–133).  Each iteration pulls a frame; on `has_frame == False` the code
raises `ValueError("No frame captured")`, which aborts the loop with the
post-loop lines 135–141 (recorder release, source exit, `complete` emit)
never executed.  Otherwise inference runs (tracking or non-tracking according
to the alert flag), the alert rule fires in tracking mode, and a quit
key-press breaks out of the loop into the cleanup lines. -/
def runLoop (alertOn : Bool) :
    List FrameInput → ℕ → List ℤ → List Keypoints → List (ℕ × ℤ × String) → RunResult
  | [], idx, mal, seq, alerts => ⟨alerts, mal, seq, idx, false, false, .running⟩
  | f :: rest, idx, mal, seq, alerts =>
    if f.hasFrame = false then
      ⟨alerts, mal, seq, idx + 1, false, false, .noFrameError⟩
    else if alertOn then
      let p := tracking_inference f.frame f.dets f.pose f.res seq
      let q := alertStep p.1 idx mal alerts
      if f.quit then ⟨q.2, q.1, p.2, idx + 1, true, true, .quitExit⟩
      else runLoop alertOn rest (idx + 1) q.1 p.2 q.2
    else
      let p := non_tracking_inference f.pose f.res seq
      if f.quit then ⟨alerts, mal, p.2, idx + 1, true, true, .quitExit⟩
      else runLoop alertOn rest (idx + 1) mal p.2 alerts

/-- stream_thread.py `StreamWorker.run`: emit `start`, initialise the
detector (empty sequence) and, in alert mode, the tracker and the empty
`mal_people` list; start the source; then create the recorder if recording
was requested — `get_recorder` raises `ValueError` when the filename is
`None`, before any frame is pulled — and enter the main loop. -/
def streamWorker_run (record : Bool) (filename : Option String) (alertOn : Bool)
    (frames : List FrameInput) : RunResult :=
  if record && filename.isNone then
    ⟨[], [], [], 0, false, false, .configError⟩
  else
    runLoop alertOn frames 0 [] [] []

/-! ### Derived views of a session used to state the temporal claims -/

/-- The per-frame tracking-mode inference outcomes of a session, obtained by
threading the rolling sequence through `tracking_inference` frame by frame.
This stream is independent of the alert bookkeeping. -/
def infFrom : List Keypoints → List FrameInput → List (Option (TrackingResult × ActionDetectorResult))
  | _, [] => []
  | seq, f :: rest =>
    let p := tracking_inference f.frame f.dets f.pose f.res seq
    p.1 :: infFrom p.2 rest

/-- The inference outcome stream of a whole session (fresh detector,
empty rolling sequence). -/
def infResults (frames : List FrameInput) :
    List (Option (TrackingResult × ActionDetectorResult)) :=
  infFrom [] frames

/-- Whether one frame's inference outcome pairs identity `id` with a
malicious-labelled action result. -/
def isMalFor (r : Option (TrackingResult × ActionDetectorResult)) (id : ℤ) : Bool :=
  match r with
  | some (tr, ar) => decide (tr.id = id) && decide (ar.action ∈ MAL_ACTIONS)
  | none => false

/-- Whether position `k` of an inference outcome stream pairs identity `id`
with a malicious-labelled action result. -/
def malAtStream (rs : List (Option (TrackingResult × ActionDetectorResult)))
    (k : ℕ) (id : ℤ) : Bool :=
  match rs.get? k with
  | some r => isMalFor r id
  | none => false

/-- Whether frame `k` of a session pairs identity `id` with a
malicious-labelled action result. -/
def malAt (frames : List FrameInput) (k : ℕ) (id : ℤ) : Bool :=
  malAtStream (infResults frames) k id

/-- The alert events of a run that concern identity `id`. -/
def alertsFor (r : RunResult) (id : ℤ) : List (ℕ × ℤ × String) :=
  r.alerts.filter fun e => decide (e.2.1 = id)

/-- Specification-level replay of the alert rule over an inference outcome
stream: scan left to right, emitting an alert whenever a malicious action is
paired with an identity not yet in `mal`. -/
def dedupScan : List (Option (TrackingResult × ActionDetectorResult)) → ℕ → List ℤ →
    List (ℕ × ℤ × String)
  | [], _, _ => []
  | r :: rest, idx, mal =>
    match r with
    | some (tr, ar) =>
      if ar.action ∈ MAL_ACTIONS ∧ tr.id ∉ mal then
        (idx, tr.id, ar.action) :: dedupScan rest (idx + 1) (mal ++ [tr.id])
      else
        dedupScan rest (idx + 1) mal
    | none => dedupScan rest (idx + 1) mal

/-- The first frame (absolute index, starting at `idx`) at which identity
`id` is paired with a malicious action in an inference outcome stream,
together with the label detected there. -/
def firstMalFrom : List (Option (TrackingResult × ActionDetectorResult)) → ℕ → ℤ →
    Option (ℕ × String)
  | [], _, _ => none
  | r :: rest, idx, id =>
    if isMalFor r id then
      match r with
      | some (_, ar) => some (idx, ar.action)
      | none => none
    else
      firstMalFrom rest (idx + 1) id

/-- The suffix of the last `n` elements of a list (`l[-n:]` in Python). -/
def lastN {α : Type} (n : ℕ) (l : List α) : List α := l.drop (l.length - n)

/-! ### Concrete inputs used to witness the claims -/

/-- A well-behaved frame: the source delivers a frame, the tracker reports
one person with identity value `5`, mediapipe finds one landmark (nonzero
keypoints), and the classifier scores `Punching` highest. -/
def goodInput : FrameInput :=
  ⟨true, [], [⟨10, 10, 4, 4, 5⟩], some [⟨1, 0, 0, 0⟩], [0, 1, 0, 0, 0], rfl, false⟩

/-- A frame pull on which the source reports no frame. -/
def noFrameInput : FrameInput :=
  ⟨false, [], [], none, [0, 0, 0, 0, 0], rfl, false⟩

/-- The keypoint vector produced by `goodInput`'s pose result. -/
def gkv : Keypoints := [1, 0, 0, 0]

/-- The tracking result produced by `goodInput`'s detection on the empty
frame: `x = int(10 - 4/2) = 8`, `y = 8`, `w = h = 4`, identity 5, empty crop. -/
def gtr : TrackingResult := ⟨8, 8, 4, 4, 5, []⟩

/-- The action result produced by `goodInput`'s classifier scores. -/
def gad : ActionDetectorResult := ⟨"Punching", 1⟩

/-- Twenty-nine nonzero keypoint vectors followed by a zero vector: thirty
window updates whose thirtieth appended vector is all-zero. -/
def zeroTailUpdates : List Keypoints := List.replicate 29 [(1 : ℚ)] ++ [[0]]

/-- A filesystem oracle on which exactly the recording `rec.avi` exists. -/
def exOneFile : String → Bool :=
  fun s => s == "behaviour_recognition_recordings/rec.avi"

/-! ## Lemmas about the rolling pose window -/

theorem lastN_eq_reverse_take {α : Type} (n : ℕ) (l : List α) :
    lastN n l = (l.reverse.take n).reverse := by
  have h := @List.reverse_take α l.reverse n
  simp only [List.reverse_reverse, List.length_reverse] at h
  rw [lastN, ← h]

theorem lastN_append {α : Type} (n : ℕ) (a b : List α) :
    lastN n (lastN n a ++ b) = lastN n (a ++ b) := by
  simp only [lastN_eq_reverse_take, List.reverse_append, List.reverse_reverse]
  congr 1
  rw [List.take_append_eq_append_take, List.take_append_eq_append_take, List.take_take]
  rw [inf_eq_left.mpr (Nat.sub_le _ _)]

theorem lastN_length_le {α : Type} (n : ℕ) (l : List α) : (lastN n l).length ≤ n := by
  simp only [lastN, List.length_drop]
  omega

theorem pushWindow_eq_lastN (s : List Keypoints) (k : Keypoints) :
    pushWindow s k = lastN SEQUENCE_LENGTH (s ++ [k]) := rfl

theorem foldl_pushWindow (ks : List Keypoints) :
    ∀ s : List Keypoints, s.length ≤ SEQUENCE_LENGTH →
      List.foldl pushWindow s ks = lastN SEQUENCE_LENGTH (s ++ ks) := by
  induction ks with
  | nil =>
    intro s hs
    simp [lastN, Nat.sub_eq_zero_of_le hs]
  | cons k ks ih =>
    intro s _
    rw [List.foldl_cons, ih (pushWindow s k) (by
      rw [pushWindow_eq_lastN]; exact lastN_length_le _ _)]
    rw [pushWindow_eq_lastN, lastN_append, List.append_assoc, List.singleton_append]

theorem foldl_pushWindow_nil (ks : List Keypoints) :
    List.foldl pushWindow [] ks = lastN SEQUENCE_LENGTH ks := by
  simpa using foldl_pushWindow ks [] (by simp)

/-! ## C3: tracking miss leaves the pose window untouched -/

/-- C3: in tracking mode, on every frame where the tracker returns no result,
the pose window after processing the frame is exactly the window before it —
`tracking_inference` returns `(None, None)` with the sequence unchanged, no
vector (not even a zero vector) having been appended. -/
theorem C3_tracking_miss_window_unchanged (frame : Frame) (dets : List Detection)
    (results : Option (List Landmark)) (res : List ℚ) (sequence : List Keypoints)
    (h : track_person frame dets = none) :
    tracking_inference frame dets results res sequence = (none, sequence) := by
  simp [tracking_inference, h]

/-- Witness for C3 at a concrete input: an empty detection list is a tracking
miss, and the (nonempty) window survives the frame unchanged. -/
theorem C3_tracking_miss_window_unchanged_witness :
    tracking_inference [] [] (some [⟨1, 0, 0, 0⟩]) [0, 1, 0, 0, 0] [[5]] = (none, [[5]]) :=
  C3_tracking_miss_window_unchanged [] [] (some [⟨1, 0, 0, 0⟩]) [0, 1, 0, 0, 0] [[5]] rfl

/-! ## C4: the readiness check -/

/-- C4: `has_valid_pose` returns true iff the window length equals
`SEQUENCE_LENGTH` (= 30) and the newest keypoint vector's component sum is
nonzero; in particular an all-zero newest vector makes it false regardless of
the window length. -/
theorem C4_has_valid_pose_iff (keypoints : Keypoints) (sequence : List Keypoints) :
    (has_valid_pose keypoints sequence = true ↔
      sequence.length = SEQUENCE_LENGTH ∧ keypoints.sum ≠ 0) ∧
    ∀ m, has_valid_pose (List.replicate m 0) sequence = false := by
  constructor
  · simp [has_valid_pose, and_comm]
  · intro m
    simp [has_valid_pose]

/-- Witness for C4 at a concrete input: a full window whose newest appended
vector is all-zero is not ready, and the characterisation holds there. -/
theorem C4_has_valid_pose_iff_witness :
    ((has_valid_pose (List.replicate 4 0) (List.replicate 30 [(1 : ℚ)]) = true ↔
      (List.replicate 30 [(1 : ℚ)]).length = SEQUENCE_LENGTH ∧
        (List.replicate 4 (0 : ℚ)).sum ≠ 0) ∧
    ∀ m, has_valid_pose (List.replicate m 0) (List.replicate 30 [(1 : ℚ)]) = false) :=
  C4_has_valid_pose_iff (List.replicate 4 0) (List.replicate 30 [(1 : ℚ)])

/-! ## C5: the window invariant (corrected) -/

/-- Counterexample to C5 as stated: thirty non-skipped window updates whose
thirtieth (newest) appended vector is the zero vector.  The window length
reaches `SEQUENCE_LENGTH` at that instant, but `has_valid_pose` is false —
readiness does not become true at the instant the Nth vector is appended. -/
theorem C5_counterexample_zero_tail :
    zeroTailUpdates.length = SEQUENCE_LENGTH ∧
    (List.foldl pushWindow [] zeroTailUpdates).length = SEQUENCE_LENGTH ∧
    has_valid_pose [0] (List.foldl pushWindow [] zeroTailUpdates) = false := by
  refine ⟨by simp [zeroTailUpdates, SEQUENCE_LENGTH], ?_, ?_⟩
  · rw [foldl_pushWindow_nil]
    simp [lastN, zeroTailUpdates, SEQUENCE_LENGTH]
  · simp [has_valid_pose]

/-- C5 (amended): the pose window's length never exceeds `SEQUENCE_LENGTH`,
its contents are exactly the last `SEQUENCE_LENGTH` appended vectors in
temporal order (oldest evicted first), after at least `SEQUENCE_LENGTH`
updates its length is exactly `SEQUENCE_LENGTH`, and readiness becomes true
at the instant the Nth vector is appended provided that newest vector's
component sum is nonzero. -/
theorem C5_window_invariant (ks : List Keypoints) :
    (List.foldl pushWindow [] ks).length ≤ SEQUENCE_LENGTH ∧
    List.foldl pushWindow [] ks = ks.drop (ks.length - SEQUENCE_LENGTH) ∧
    (SEQUENCE_LENGTH ≤ ks.length →
      (List.foldl pushWindow [] ks).length = SEQUENCE_LENGTH) ∧
    ∀ k : Keypoints, SEQUENCE_LENGTH - 1 ≤ ks.length → k.sum ≠ 0 →
      has_valid_pose k (List.foldl pushWindow [] (ks ++ [k])) = true := by
  refine ⟨?_, ?_, ?_, ?_⟩
  · rw [foldl_pushWindow_nil]
    exact lastN_length_le _ _
  · rw [foldl_pushWindow_nil]
    rfl
  · intro h
    rw [foldl_pushWindow_nil]
    simp only [lastN, List.length_drop]
    omega
  · intro k hlen hsum
    rw [foldl_pushWindow_nil]
    have hl : (lastN SEQUENCE_LENGTH (ks ++ [k])).length = SEQUENCE_LENGTH := by
      simp only [lastN, List.length_drop, List.length_append, List.length_singleton]
      simp only [SEQUENCE_LENGTH] at hlen ⊢
      omega
    simp [has_valid_pose, hsum, hl]

/-- Witness for C5 (amended) at a concrete input: twenty-nine updates and
then a nonzero thirtieth vector make the window ready at that very append. -/
theorem C5_window_invariant_witness :
    has_valid_pose [1] (List.foldl pushWindow [] (List.replicate 29 [(1 : ℚ)] ++ [[1]])) = true :=
  (C5_window_invariant (List.replicate 29 [(1 : ℚ)])).2.2.2 [1] (by decide) (by norm_num)

/-! ## C10: tracked subject but no pose in the region of interest -/

/-- C10: in tracking mode, when the tracker does find a subject (a nonempty
candidate list) but mediapipe detects no pose in the cropped region, the
orchestrator still appends the zero vector of length 33 × 4 to the pose
window (evicting the oldest entry when full, per `pushWindow`), returns
`(None, None)` — discarding the tracking result, so no bounding box is
reported — and no alert can fire on that frame. -/
theorem C10_tracked_no_pose (frame : Frame) (d : Detection) (rest : List Detection)
    (res : List ℚ) (sequence : List Keypoints) :
    tracking_inference frame (d :: rest) none res sequence
      = (none, pushWindow sequence (List.replicate (33 * 4) 0)) ∧
    (track_person frame (d :: rest)).isSome = true ∧
    ∀ id, isMalFor (tracking_inference frame (d :: rest) none res sequence).1 id = false := by
  have h : tracking_inference frame (d :: rest) none res sequence
      = (none, pushWindow sequence (List.replicate (33 * 4) 0)) := by
    simp [tracking_inference, track_person, predict_pose, extract_keypoints, has_valid_pose]
  refine ⟨h, by simp [track_person], ?_⟩
  intro id
  rw [h]
  rfl

/-! ## Lemmas about the argmax decoding -/

theorem foldr_max_mem (x : ℚ) (xs : List ℚ) : List.foldr max x xs ∈ x :: xs := by
  induction xs with
  | nil => simp
  | cons y ys ih =>
    simp only [List.foldr_cons]
    rcases max_choice y (List.foldr max x ys) with h | h <;> rw [h]
    · simp
    · rcases List.mem_cons.mp ih with h' | h'
      · simp [h']
      · simp [List.mem_cons.mpr (Or.inr h')]

theorem le_foldr_max (x : ℚ) (xs : List ℚ) :
    ∀ a ∈ x :: xs, a ≤ List.foldr max x xs := by
  induction xs with
  | nil => simp
  | cons y ys ih =>
    intro a ha
    simp only [List.foldr_cons]
    rcases List.mem_cons.mp ha with h | h
    · exact le_trans (ih a (by simp [h])) (le_max_right _ _)
    · rcases List.mem_cons.mp h with h' | h'
      · rw [h']
        exact le_max_left _ _
      · exact le_trans (ih a (by simp [h'])) (le_max_right _ _)

theorem get_ne_of_lt_indexOf {l : List ℚ} {a : ℚ} :
    ∀ j (hj : j < l.length), j < l.indexOf a → l.get ⟨j, hj⟩ ≠ a := by
  induction l with
  | nil => intro j hj; simp at hj
  | cons b t ih =>
    intro j hj hlt
    rw [List.indexOf_cons] at hlt
    by_cases hba : (b == a) = true
    · rw [hba] at hlt
      simp at hlt
    · rw [Bool.not_eq_true] at hba
      rw [hba] at hlt
      simp only [cond_false] at hlt
      match j with
      | 0 =>
        simp only [List.get]
        intro hcon
        rw [hcon] at hba
        simp at hba
      | j + 1 =>
        exact ih j (by simpa using hj) (by omega)

/-! ## C6: predict_action is a stable argmax over the closed action set -/

/-- C6: for a classifier score vector of the model's output arity (5, one
score per label of the closed set `ACTIONS`), `predict_action` returns the
label at the index of the maximum score, with the first-encountered maximum
winning on ties, and the returned probability is exactly that class's raw
score with no renormalisation.  Determinism holds because `predict_action`
is a function of the scores alone. -/
theorem C6_predict_action_stable_argmax (res : List ℚ) (h : res.length = 5) :
    ∃ i lab p, i < 5 ∧ predict_action res = some (lab, p) ∧
      actionsList.get? i = some lab ∧ res.get? i = some p ∧
      (∀ j q, res.get? j = some q → q ≤ p) ∧
      (∀ j q, j < i → res.get? j = some q → q < p) := by
  match res, h with
  | x :: xs, h =>
    set m := List.foldr max x xs with hm
    have hmem : m ∈ x :: xs := foldr_max_mem x xs
    have hle : ∀ a ∈ x :: xs, a ≤ m := le_foldr_max x xs
    have hidx : (x :: xs).indexOf m < (x :: xs).length :=
      List.indexOf_lt_length.mpr hmem
    have hget : (x :: xs).get ⟨(x :: xs).indexOf m, hidx⟩ = m := List.indexOf_get hidx
    have hargmax : npArgmax (x :: xs) = (x :: xs).indexOf m := rfl
    refine ⟨(x :: xs).indexOf m, actionsList.get ⟨(x :: xs).indexOf m, by
      simp only [h] at hidx
      simpa [actionsList] using hidx⟩, m, by omega, ?_, ?_, ?_, ?_, ?_⟩
    · rw [predict_action, hargmax, ACTIONS]
      rw [List.get?_eq_get (by simpa [actionsList] using (h ▸ hidx)),
        List.get?_eq_get hidx, hget]
    · exact List.get?_eq_get _
    · rw [List.get?_eq_get hidx, hget]
    · intro j q hq
      exact hle q (List.get?_mem hq)
    · intro j q hj hq
      have hjlen : j < (x :: xs).length := by
        by_contra hcon
        rw [List.get?_eq_none.mpr (by omega)] at hq
        exact Option.noConfusion hq
      have hq' : (x :: xs).get ⟨j, hjlen⟩ = q := by
        rw [List.get?_eq_get hjlen] at hq
        exact Option.some.inj hq
      have hne : (x :: xs).get ⟨j, hjlen⟩ ≠ m := get_ne_of_lt_indexOf j hjlen hj
      have := hle ((x :: xs).get ⟨j, hjlen⟩) (List.get_mem _ _ hjlen)
      rw [hq'] at hne this
      exact lt_of_le_of_ne this hne

/-- Witness for C6 at a concrete input: a score vector with a tie between
indices 1 and 2; the stable argmax picks index 1 (`Punching`). -/
theorem C6_predict_action_stable_argmax_witness :
    ∃ i lab p, i < 5 ∧ predict_action [0, 1, 1, 0, 0] = some (lab, p) ∧
      actionsList.get? i = some lab ∧ ([(0 : ℚ), 1, 1, 0, 0]).get? i = some p ∧
      (∀ j q, ([(0 : ℚ), 1, 1, 0, 0]).get? j = some q → q ≤ p) ∧
      (∀ j q, j < i → ([(0 : ℚ), 1, 1, 0, 0]).get? j = some q → q < p) :=
  C6_predict_action_stable_argmax [0, 1, 1, 0, 0] rfl

/-! ## C7: the tracker result shaping -/

/-- C7: `track_person` returns no result exactly when the detector returns
zero candidates; with at least one candidate it uses only the first (the
result is independent of every later candidate), converts the centre-based
box to top-left origin with `x = centerX - width/2`, `y = centerY - height/2`
(with Python's `int` truncation), and crops the region of interest
`frame[y:y+h, x:x+w]` using that box. -/
theorem C7_track_person_first_candidate (frame : Frame) (d : Detection)
    (rest : List Detection) :
    (∀ dets, track_person frame dets = none ↔ dets = []) ∧
    track_person frame (d :: rest) = track_person frame [d] ∧
    track_person frame (d :: rest) =
      some { x := pyInt (d.cx - d.w / 2), y := pyInt (d.cy - d.h / 2),
             w := pyInt d.w, h := pyInt d.h, id := pyInt d.dataId,
             roi := npSlice2 frame (pyInt (d.cy - d.h / 2))
                      (pyInt (d.cy - d.h / 2) + pyInt d.h)
                      (pyInt (d.cx - d.w / 2))
                      (pyInt (d.cx - d.w / 2) + pyInt d.w) } := by
  refine ⟨fun dets => ?_, rfl, rfl⟩
  cases dets <;> simp [track_person]

/-- Witness for C7 at a concrete input: one candidate box centred at (2, 2)
with width and height 2 selects the top-left-origin box (1, 1, 2, 2). -/
theorem C7_track_person_first_candidate_witness :
    (∀ dets, track_person [[1, 2, 3], [4, 5, 6], [7, 8, 9]] dets = none ↔ dets = []) ∧
    track_person [[1, 2, 3], [4, 5, 6], [7, 8, 9]] (⟨2, 2, 2, 2, 7⟩ :: [⟨9, 9, 2, 2, 8⟩])
      = track_person [[1, 2, 3], [4, 5, 6], [7, 8, 9]] [⟨2, 2, 2, 2, 7⟩] ∧
    track_person [[1, 2, 3], [4, 5, 6], [7, 8, 9]] (⟨2, 2, 2, 2, 7⟩ :: [⟨9, 9, 2, 2, 8⟩])
      = some { x := pyInt ((2 : ℚ) - 2 / 2), y := pyInt ((2 : ℚ) - 2 / 2),
               w := pyInt 2, h := pyInt 2, id := pyInt 7,
               roi := npSlice2 [[1, 2, 3], [4, 5, 6], [7, 8, 9]]
                        (pyInt ((2 : ℚ) - 2 / 2)) (pyInt ((2 : ℚ) - 2 / 2) + pyInt 2)
                        (pyInt ((2 : ℚ) - 2 / 2)) (pyInt ((2 : ℚ) - 2 / 2) + pyInt 2) } :=
  C7_track_person_first_candidate [[1, 2, 3], [4, 5, 6], [7, 8, 9]] ⟨2, 2, 2, 2, 7⟩
    [⟨9, 9, 2, 2, 8⟩]

/-! ## Lemmas about the session loop -/

theorem runLoop_step_alert (g : FrameInput) (rest : List FrameInput) (idx : ℕ)
    (mal : List ℤ) (seq : List Keypoints) (alerts : List (ℕ × ℤ × String))
    (hg : g.hasFrame = true) (hq : g.quit = false) :
    runLoop true (g :: rest) idx mal seq alerts
      = runLoop true rest (idx + 1)
          (alertStep (tracking_inference g.frame g.dets g.pose g.res seq).1 idx mal alerts).1
          (tracking_inference g.frame g.dets g.pose g.res seq).2
          (alertStep (tracking_inference g.frame g.dets g.pose g.res seq).1 idx mal alerts).2 := by
  rw [runLoop]
  simp [hg, hq]

theorem runLoop_step_noalert (g : FrameInput) (rest : List FrameInput) (idx : ℕ)
    (mal : List ℤ) (seq : List Keypoints) (alerts : List (ℕ × ℤ × String))
    (hg : g.hasFrame = true) (hq : g.quit = false) :
    runLoop false (g :: rest) idx mal seq alerts
      = runLoop false rest (idx + 1) mal (non_tracking_inference g.pose g.res seq).2 alerts := by
  rw [runLoop]
  simp [hg, hq]

theorem runLoop_step_any (alertOn : Bool) (g : FrameInput) (rest : List FrameInput)
    (idx : ℕ) (mal : List ℤ) (seq : List Keypoints) (alerts : List (ℕ × ℤ × String))
    (hg : g.hasFrame = true) (hq : g.quit = false) :
    ∃ mal' seq' alerts',
      runLoop alertOn (g :: rest) idx mal seq alerts
        = runLoop alertOn rest (idx + 1) mal' seq' alerts' := by
  cases alertOn
  · exact ⟨mal, (non_tracking_inference g.pose g.res seq).2, alerts,
      runLoop_step_noalert g rest idx mal seq alerts hg hq⟩
  · exact ⟨(alertStep (tracking_inference g.frame g.dets g.pose g.res seq).1 idx mal alerts).1,
      (tracking_inference g.frame g.dets g.pose g.res seq).2,
      (alertStep (tracking_inference g.frame g.dets g.pose g.res seq).1 idx mal alerts).2,
      runLoop_step_alert g rest idx mal seq alerts hg hq⟩

theorem runLoop_outcome_ne_config (alertOn : Bool) :
    ∀ (frames : List FrameInput) (idx : ℕ) (mal : List ℤ) (seq : List Keypoints)
      (alerts : List (ℕ × ℤ × String)),
      (runLoop alertOn frames idx mal seq alerts).outcome ≠ Outcome.configError := by
  intro frames
  induction frames with
  | nil => intro idx mal seq alerts; simp [runLoop]
  | cons f rest ih =>
    intro idx mal seq alerts
    by_cases hf : f.hasFrame = false
    · rw [runLoop]
      simp [hf]
    · rw [Bool.not_eq_false] at hf
      by_cases hq : f.quit = true
      · rw [runLoop]
        cases alertOn <;> simp [hf, hq]
      · rw [Bool.not_eq_true] at hq
        obtain ⟨mal', seq', alerts', hstep⟩ :=
          runLoop_step_any alertOn f rest idx mal seq alerts hf hq
        rw [hstep]
        exact ih _ _ _ _

theorem runLoop_noFrame (alertOn : Bool) (f : FrameInput) (hf : f.hasFrame = false)
    (post : List FrameInput) :
    ∀ (pre : List FrameInput), (∀ g ∈ pre, g.hasFrame = true ∧ g.quit = false) →
      ∀ (idx : ℕ) (mal : List ℤ) (seq : List Keypoints)
        (alerts : List (ℕ × ℤ × String)),
        (runLoop alertOn (pre ++ f :: post) idx mal seq alerts).outcome
            = Outcome.noFrameError ∧
          (runLoop alertOn (pre ++ f :: post) idx mal seq alerts).framesPulled
            = idx + pre.length + 1 ∧
          (runLoop alertOn (pre ++ f :: post) idx mal seq alerts).completeEmitted = false ∧
          (runLoop alertOn (pre ++ f :: post) idx mal seq alerts).cleanupRan = false := by
  intro pre
  induction pre with
  | nil =>
    intro _ idx mal seq alerts
    rw [List.nil_append, runLoop]
    simp [hf]
  | cons g pre ih =>
    intro hpre idx mal seq alerts
    have hg := hpre g (by simp)
    have hpre' : ∀ g' ∈ pre, g'.hasFrame = true ∧ g'.quit = false := fun g' h' =>
      hpre g' (by simp [h'])
    rw [List.cons_append]
    obtain ⟨mal', seq', alerts', hstep⟩ :=
      runLoop_step_any alertOn g (pre ++ f :: post) idx mal seq alerts hg.1 hg.2
    rw [hstep]
    have h := ih hpre' (idx + 1) mal' seq' alerts'
    refine ⟨h.1, ?_, h.2.2.1, h.2.2.2⟩
    rw [h.2.1]
    simp
    omega

/-! ## C8: recording without a filename fails before the loop -/

/-- C8: when recording is requested with no destination filename, the run
ends in a configuration error with zero frames pulled from the source, i.e.
before the frame loop starts; when recording is not requested — or a name is
supplied — no configuration error is ever raised, for any filename. -/
theorem C8_record_requires_filename (alertOn : Bool) (frames : List FrameInput)
    (s : String) (fn : Option String) :
    (streamWorker_run true none alertOn frames).outcome = Outcome.configError ∧
    (streamWorker_run true none alertOn frames).framesPulled = 0 ∧
    (streamWorker_run false fn alertOn frames).outcome ≠ Outcome.configError ∧
    (streamWorker_run true (some s) alertOn frames).outcome ≠ Outcome.configError := by
  refine ⟨rfl, rfl, ?_, ?_⟩
  · rw [streamWorker_run]
    simp only [Bool.false_and, Bool.false_eq_true, if_false]
    exact runLoop_outcome_ne_config alertOn frames 0 [] [] []
  · rw [streamWorker_run]
    simp only [Option.isNone_some, Bool.and_false, Bool.false_eq_true, if_false]
    exact runLoop_outcome_ne_config alertOn frames 0 [] [] []

/-- Witness for C8 at a concrete input. -/
theorem C8_record_requires_filename_witness :
    (streamWorker_run true none false [noFrameInput]).outcome = Outcome.configError ∧
    (streamWorker_run true none false [noFrameInput]).framesPulled = 0 ∧
    (streamWorker_run false none false [noFrameInput]).outcome ≠ Outcome.configError ∧
    (streamWorker_run true (some "rec.avi") false [noFrameInput]).outcome
      ≠ Outcome.configError :=
  C8_record_requires_filename false [noFrameInput] "rec.avi" none

/-! ## C2: source exhaustion does not release resources (corrected) -/

/-- Counterexample to C2 as stated: a session whose first frame pull reports
no frame.  The loop terminates via the raised `ValueError` (outcome
`noFrameError`), but the session-complete notification is not emitted and
the post-loop release of the recorder and video source never runs — contrary
to the claim that they are executed. -/
theorem C2_counterexample_no_release :
    (streamWorker_run false none false [noFrameInput]).outcome = Outcome.noFrameError ∧
    (streamWorker_run false none false [noFrameInput]).completeEmitted = false ∧
    (streamWorker_run false none false [noFrameInput]).cleanupRan = false := by
  refine ⟨rfl, rfl, rfl⟩

/-- C2 (amended): when `next_frame` reports no frame, the session loop does
terminate at that very pull without retrying (a `ValueError` is raised), but
the recorder and the video source are NOT released and the session-complete
notification is NOT emitted — the release and completion steps run only when
the loop exits through the quit path. -/
theorem C2_source_exhaustion_aborts (record : Bool) (filename : Option String)
    (alertOn : Bool) (pre : List FrameInput) (f : FrameInput) (post : List FrameInput)
    (hcfg : (record && filename.isNone) = false)
    (hpre : ∀ g ∈ pre, g.hasFrame = true ∧ g.quit = false)
    (hf : f.hasFrame = false) :
    (streamWorker_run record filename alertOn (pre ++ f :: post)).outcome
        = Outcome.noFrameError ∧
      (streamWorker_run record filename alertOn (pre ++ f :: post)).framesPulled
        = pre.length + 1 ∧
      (streamWorker_run record filename alertOn (pre ++ f :: post)).completeEmitted
        = false ∧
      (streamWorker_run record filename alertOn (pre ++ f :: post)).cleanupRan = false := by
  rw [streamWorker_run, if_neg (by simp [hcfg])]
  have := runLoop_noFrame alertOn f hf post pre hpre 0 [] [] []
  exact ⟨this.1, by rw [this.2.1]; omega, this.2.2.1, this.2.2.2⟩

/-- Witness for C2 (amended) at a concrete input: one good frame, then a
failed pull; the run aborts after the second pull with no cleanup. -/
theorem C2_source_exhaustion_aborts_witness :
    (streamWorker_run false none true ([goodInput] ++ noFrameInput :: [])).outcome
        = Outcome.noFrameError ∧
      (streamWorker_run false none true ([goodInput] ++ noFrameInput :: [])).framesPulled
        = 2 ∧
      (streamWorker_run false none true ([goodInput] ++ noFrameInput :: [])).completeEmitted
        = false ∧
      (streamWorker_run false none true ([goodInput] ++ noFrameInput :: [])).cleanupRan
        = false :=
  C2_source_exhaustion_aborts false none true [goodInput] noFrameInput [] rfl
    (by intro g hg; simp at hg; simp [hg, goodInput]) rfl

/-! ## Lemmas about the alert dedup logic -/

theorem runLoop_alerts :
    ∀ (frames : List FrameInput), (∀ f ∈ frames, f.hasFrame = true ∧ f.quit = false) →
      ∀ (idx : ℕ) (mal : List ℤ) (seq : List Keypoints)
        (alerts : List (ℕ × ℤ × String)),
        (runLoop true frames idx mal seq alerts).alerts
          = alerts ++ dedupScan (infFrom seq frames) idx mal := by
  intro frames
  induction frames with
  | nil =>
    intro _ idx mal seq alerts
    simp [runLoop, infFrom, dedupScan]
  | cons f rest ih =>
    intro hgood idx mal seq alerts
    have hf := hgood f (by simp)
    rw [runLoop_step_alert f rest idx mal seq alerts hf.1 hf.2,
      ih (fun g hg => hgood g (by simp [hg])) (idx + 1) _ _ _]
    simp only [infFrom]
    cases hp : (tracking_inference f.frame f.dets f.pose f.res seq).1 with
    | none => simp [dedupScan, alertStep, hp]
    | some pr =>
      obtain ⟨tr, ar⟩ := pr
      by_cases hc : ar.action ∈ MAL_ACTIONS ∧ tr.id ∉ mal
      · simp [dedupScan, alertStep, hp, hc]
      · simp [dedupScan, alertStep, hp, hc]

theorem dedupScan_filter_of_mem :
    ∀ (rs : List (Option (TrackingResult × ActionDetectorResult))) (idx : ℕ)
      (mal : List ℤ) (id : ℤ), id ∈ mal →
      (dedupScan rs idx mal).filter (fun e => decide (e.2.1 = id)) = [] := by
  intro rs
  induction rs with
  | nil => intro idx mal id _; simp [dedupScan]
  | cons r rest ih =>
    intro idx mal id hid
    cases r with
    | none =>
      rw [dedupScan]
      exact ih _ _ _ hid
    | some pr =>
      obtain ⟨tr, ar⟩ := pr
      rw [dedupScan]
      by_cases hc : ar.action ∈ MAL_ACTIONS ∧ tr.id ∉ mal
      · rw [if_pos hc]
        have hne : tr.id ≠ id := fun h => hc.2 (h ▸ hid)
        rw [List.filter_cons]
        simp only [decide_eq_true_eq, hne, if_false]
        exact ih _ _ _ (List.mem_append_left _ hid)
      · rw [if_neg hc]
        exact ih _ _ _ hid

theorem firstMalFrom_cons_false (r : Option (TrackingResult × ActionDetectorResult))
    (rest : List (Option (TrackingResult × ActionDetectorResult))) (idx : ℕ) (id : ℤ)
    (h : isMalFor r id = false) :
    firstMalFrom (r :: rest) idx id = firstMalFrom rest (idx + 1) id := by
  cases r with
  | none =>
    rw [firstMalFrom]
    simp [h]
  | some pr =>
    obtain ⟨tr, ar⟩ := pr
    rw [firstMalFrom]
    simp [h]

theorem dedupScan_filter :
    ∀ (rs : List (Option (TrackingResult × ActionDetectorResult))) (idx : ℕ)
      (mal : List ℤ) (id : ℤ), id ∉ mal →
      (dedupScan rs idx mal).filter (fun e => decide (e.2.1 = id))
        = (firstMalFrom rs idx id).elim [] (fun kl => [(kl.1, id, kl.2)]) := by
  intro rs
  induction rs with
  | nil => intro idx mal id _; simp [dedupScan, firstMalFrom]
  | cons r rest ih =>
    intro idx mal id hid
    cases r with
    | none =>
      rw [dedupScan, firstMalFrom_cons_false none rest idx id rfl]
      exact ih _ _ _ hid
    | some pr =>
      obtain ⟨tr, ar⟩ := pr
      by_cases hm : isMalFor (some (tr, ar)) id = true
      · have hparts : tr.id = id ∧ ar.action ∈ MAL_ACTIONS := by
          simpa [isMalFor] using hm
        have hc : ar.action ∈ MAL_ACTIONS ∧ tr.id ∉ mal :=
          ⟨hparts.2, hparts.1 ▸ hid⟩
        have hrest : List.filter (fun e => decide (e.2.1 = id))
            (dedupScan rest (idx + 1) (mal ++ [id])) = [] :=
          dedupScan_filter_of_mem rest (idx + 1) (mal ++ [id]) id
            (List.mem_append_right _ (by simp))
        rw [dedupScan, if_pos hc, firstMalFrom, if_pos hm, List.filter_cons]
        simp [hparts.1, hrest]
      · have hmf : isMalFor (some (tr, ar)) id = false := by
          simpa using hm
        have hnm : ¬(tr.id = id ∧ ar.action ∈ MAL_ACTIONS) := by
          intro h
          exact hm (by simp [isMalFor, h.1, h.2])
        rw [dedupScan, firstMalFrom_cons_false _ rest idx id hmf]
        by_cases hc : ar.action ∈ MAL_ACTIONS ∧ tr.id ∉ mal
        · rw [if_pos hc]
          have hne : tr.id ≠ id := fun h => hnm ⟨h, hc.1⟩
          rw [List.filter_cons]
          simp only [decide_eq_true_eq, hne, if_false]
          exact ih _ _ _ (by
            intro h
            rcases List.mem_append.mp h with h' | h'
            · exact hid h'
            · simp at h'
              exact hne h'.symm)
        · rw [if_neg hc]
          exact ih _ _ _ hid

theorem firstMalFrom_eq :
    ∀ (rs : List (Option (TrackingResult × ActionDetectorResult))) (i idx : ℕ)
      (id : ℤ), malAtStream rs i id = true →
      (∀ k, k < i → malAtStream rs k id = false) →
      ∃ lab, firstMalFrom rs idx id = some (idx + i, lab) ∧ lab ∈ MAL_ACTIONS := by
  intro rs
  induction rs with
  | nil =>
    intro i idx id hi _
    simp [malAtStream] at hi
  | cons r rest ih =>
    intro i idx id hi hfirst
    cases i with
    | zero =>
      have hm : isMalFor r id = true := by simpa [malAtStream] using hi
      cases r with
      | none => simp [isMalFor] at hm
      | some pr =>
        obtain ⟨tr, ar⟩ := pr
        have hparts : tr.id = id ∧ ar.action ∈ MAL_ACTIONS := by
          simpa [isMalFor] using hm
        refine ⟨ar.action, ?_, hparts.2⟩
        rw [firstMalFrom, if_pos hm]
        simp
    | succ i =>
      have h0 : isMalFor r id = false := by
        simpa [malAtStream] using hfirst 0 (Nat.succ_pos i)
      have hi' : malAtStream rest i id = true := by
        simpa [malAtStream, List.get?_cons_succ] using hi
      have hfirst' : ∀ k, k < i → malAtStream rest k id = false := fun k hk => by
        simpa [malAtStream, List.get?_cons_succ] using hfirst (k + 1) (by omega)
      obtain ⟨lab, heq, hmem⟩ := ih i (idx + 1) id hi' hfirst'
      refine ⟨lab, ?_, hmem⟩
      rw [firstMalFrom_cons_false r rest idx id h0, heq]
      rw [show idx + 1 + i = idx + (i + 1) from by omega]

/-! ## C1: the alert one-shot policy -/

/-- C1: in a tracking-mode session whose processed frames all deliver a frame
and never press quit, if identity `id` is paired with a malicious-labelled
action result on frames `i` and `j` with `i < j` (the labels may differ) and
`i` is the first such frame, then exactly one novel-alert is emitted for that
identity — at frame `i`'s processing step, with a malicious label, and not at
`j`.  The first alert exhausts all further alerts for the identity. -/
theorem C1_alert_one_shot (frames : List FrameInput) (id : ℤ) (i j : ℕ)
    (hgood : ∀ f ∈ frames, f.hasFrame = true ∧ f.quit = false)
    (hij : i < j)
    (hi : malAt frames i id = true)
    (hj : malAt frames j id = true)
    (hfirst : ∀ k, k < i → malAt frames k id = false) :
    ∃ lab, lab ∈ MAL_ACTIONS ∧
      alertsFor (streamWorker_run false none true frames) id = [(i, id, lab)] ∧
      ∀ e ∈ alertsFor (streamWorker_run false none true frames) id, e.1 ≠ j := by
  obtain ⟨lab, heq, hmem⟩ := firstMalFrom_eq (infResults frames) i 0 id hi hfirst
  have halerts : alertsFor (streamWorker_run false none true frames) id
      = [(i, id, lab)] := by
    rw [alertsFor, streamWorker_run]
    simp only [Bool.false_and, Bool.false_eq_true, if_false]
    rw [runLoop_alerts frames hgood 0 [] [] [], List.nil_append,
      dedupScan_filter (infFrom [] frames) 0 [] id (by simp)]
    have : infFrom [] frames = infResults frames := rfl
    rw [this, heq]
    simp
  refine ⟨lab, hmem, halerts, ?_⟩
  intro e he
  rw [halerts] at he
  simp only [List.mem_singleton] at he
  subst he
  exact Nat.ne_of_lt hij

/-! ## Symbolic evaluation of the `goodInput` session (used by witnesses) -/

theorem track_person_goodInput :
    track_person ([] : Frame) [⟨10, 10, 4, 4, 5⟩] = some gtr := by
  rw [track_person]
  have h8 : pyInt ((10 : ℚ) - 4 / 2) = 8 := by
    rw [pyInt, if_pos (by norm_num)]
    norm_num
  have h4 : pyInt (4 : ℚ) = 4 := by
    rw [pyInt, if_pos (by norm_num)]
    norm_num
  have h5 : pyInt (5 : ℚ) = 5 := by
    rw [pyInt, if_pos (by norm_num)]
    norm_num
  simp only [h8, h4, h5, gtr]
  simp [npSlice2, pySliceList, pyIdx]

theorem pushWindow_replicate (kv : Keypoints) (l : ℕ) (h : l ≤ 30) :
    pushWindow (List.replicate l kv) kv = List.replicate (min 30 (l + 1)) kv := by
  rw [pushWindow_eq_lastN, ← List.replicate_succ', lastN, List.length_replicate,
    List.drop_replicate]
  congr 1
  simp only [SEQUENCE_LENGTH]
  omega

theorem predict_action_goodScores :
    predict_action [0, 1, 0, 0, 0] = some ("Punching", 1) := by
  have hmax : List.foldr max (0 : ℚ) [1, 0, 0, 0] = 1 := by
    simp [List.foldr]
  have hidx : List.indexOf (1 : ℚ) [0, 1, 0, 0, 0] = 1 := by
    have h01 : ((0 : ℚ) == 1) = false := beq_eq_false_iff_ne.mpr (by norm_num)
    rw [List.indexOf_cons, h01, cond_false, List.indexOf_cons, beq_self_eq_true, cond_true]
  have hargmax : npArgmax [0, 1, 0, 0, 0] = 1 := by
    rw [npArgmax, hmax, hidx]
  rw [predict_action, hargmax]
  rfl

theorem tracking_inference_goodInput (l : ℕ) (h : l ≤ 30) :
    tracking_inference [] [⟨10, 10, 4, 4, 5⟩] (some [⟨1, 0, 0, 0⟩]) [0, 1, 0, 0, 0]
        (List.replicate l gkv)
      = (if 29 ≤ l then some (gtr, gad) else none,
         List.replicate (min 30 (l + 1)) gkv) := by
  rw [tracking_inference, track_person_goodInput]
  have hkv : extract_keypoints (some [⟨1, 0, 0, 0⟩]) = gkv := by
    simp [extract_keypoints, gkv]
  have hpp : predict_pose (some [⟨1, 0, 0, 0⟩]) (List.replicate l gkv)
      = (gkv, List.replicate (min 30 (l + 1)) gkv) := by
    rw [predict_pose]
    simp only [hkv]
    rw [pushWindow_replicate gkv l h]
  simp only [hpp]
  have hsum : gkv.sum ≠ 0 := by
    simp [gkv]
  by_cases hready : 29 ≤ l
  · have hvp : has_valid_pose gkv (List.replicate (min 30 (l + 1)) gkv) = true := by
      simp [has_valid_pose, hsum, SEQUENCE_LENGTH]
      omega
    rw [if_pos hvp, predict_action_goodScores]
    simp [hready, gad]
  · have hvp : has_valid_pose gkv (List.replicate (min 30 (l + 1)) gkv) = false := by
      simp [has_valid_pose, SEQUENCE_LENGTH]
      intro
      omega
    rw [if_neg (by simp [hvp])]
    simp [hready]

theorem infFrom_goodInput :
    ∀ (m l : ℕ), l ≤ 30 →
      infFrom (List.replicate l gkv) (List.replicate m goodInput)
        = (List.range m).map
            (fun t => if 29 ≤ l + t then some (gtr, gad) else none) := by
  intro m
  induction m with
  | zero => intro l _; simp [infFrom]
  | succ m ih =>
    intro l hl
    rw [List.replicate_succ]
    simp only [infFrom]
    have hframe : goodInput.frame = ([] : Frame) := rfl
    have hdets : goodInput.dets = [⟨10, 10, 4, 4, 5⟩] := rfl
    have hpose : goodInput.pose = some [⟨1, 0, 0, 0⟩] := rfl
    have hres : goodInput.res = [0, 1, 0, 0, 0] := rfl
    rw [hframe, hdets, hpose, hres, tracking_inference_goodInput l hl,
      ih (min 30 (l + 1)) (by omega), List.range_succ_eq_map, List.map_cons,
      List.map_map]
    congr 1
    apply List.map_congr_left
    intro t _
    have hiff : (29 ≤ min 30 (l + 1) + t) ↔ (29 ≤ l + Nat.succ t) := by omega
    simp only [Function.comp_apply]
    rw [if_congr hiff rfl rfl]

theorem malAt_goodSession (k : ℕ) (hk : k < 31) :
    malAt (List.replicate 31 goodInput) k 5 = if 29 ≤ k then true else false := by
  have hstream : (infResults (List.replicate 31 goodInput)).get? k
      = some (if 29 ≤ k then some (gtr, gad) else none) := by
    rw [infResults]
    have h := infFrom_goodInput 31 0 (by omega)
    simp only [List.replicate_zero, Nat.zero_add] at h
    rw [h, List.get?_map, List.get?_range hk]
    simp
  have hunf : malAt (List.replicate 31 goodInput) k 5
      = isMalFor (if 29 ≤ k then some (gtr, gad) else none) 5 := by
    rw [malAt]
    simp only [malAtStream]
    rw [hstream]
  rw [hunf]
  by_cases h29 : 29 ≤ k
  · rw [if_pos h29, if_pos h29]
    simp [isMalFor, gtr, gad, MAL_ACTIONS]
  · rw [if_neg h29, if_neg h29]
    rfl

/-- Witness for C1 at a concrete input: a 31-frame tracking session in which
identity 5 is paired with `Punching` on frames 29 and 30; exactly one alert
fires, at frame 29, not at frame 30. -/
theorem C1_alert_one_shot_witness :
    ∃ lab, lab ∈ MAL_ACTIONS ∧
      alertsFor (streamWorker_run false none true (List.replicate 31 goodInput)) 5
        = [(29, 5, lab)] ∧
      ∀ e ∈ alertsFor (streamWorker_run false none true (List.replicate 31 goodInput)) 5,
        e.1 ≠ 30 :=
  C1_alert_one_shot (List.replicate 31 goodInput) 5 29 30
    (fun f hf => by rw [List.eq_of_mem_replicate hf]; exact ⟨rfl, rfl⟩)
    (by omega)
    (by rw [malAt_goodSession 29 (by omega)]; simp)
    (by rw [malAt_goodSession 30 (by omega)]; simp)
    (fun k hk => by rw [malAt_goodSession k (by omega)]; simp; omega)

/-! ## C9: the unique-filename scheme -/

theorem gutf_loop_spec (ex : String → Bool) (path st extn : String) :
    ∀ (fuel k : ℕ) (name : String),
      gutf_loop ex path st extn (candName st k) (k + 1) fuel = some name →
      ∃ j, k ≤ j ∧ name = candName st j ++ extn ∧
        ex (path ++ "/" ++ candName st j ++ extn) = false ∧
        ∀ m, k ≤ m → m < j → ex (path ++ "/" ++ candName st m ++ extn) = true := by
  intro fuel
  induction fuel with
  | zero =>
    intro k name h
    rw [gutf_loop] at h
    exact Option.noConfusion h
  | succ fuel ih =>
    intro k name h
    rw [gutf_loop] at h
    by_cases hex : ex (path ++ "/" ++ candName st k ++ extn) = true
    · rw [if_pos hex] at h
      have hcand : st ++ "_" ++ toString (k + 1) = candName st (k + 1) := by
        rw [candName, if_neg (Nat.succ_ne_zero k)]
      rw [hcand] at h
      obtain ⟨j, hkj, hname, hfree, hall⟩ := ih (k + 1) name h
      refine ⟨j, by omega, hname, hfree, ?_⟩
      intro m hkm hmj
      rcases Nat.eq_or_lt_of_le hkm with heq | hlt
      · rw [← heq]
        exact hex
      · exact hall m hlt hmj
    · rw [if_neg hex] at h
      refine ⟨k, le_refl k, (Option.some.inj h).symm, by simpa using hex, ?_⟩
      intro m hkm hmk
      omega

/-- C9: whenever `get_unique_filename` returns a name, the recordings
directory exists afterwards (auto-created if absent), the returned filename
does not collide with any existing file, and it is the base name (`j = 0`)
when that is free, otherwise the base suffixed with `_j` for the first free
suffix — every earlier candidate name already exists. -/
theorem C9_unique_filename (ex : String → Bool) (dirs : List String)
    (st extn : String) (fuel : ℕ) (name : String)
    (h : get_unique_filename ex dirs st extn fuel = some name) :
    RECORDING_PATH ∈ (get_recording_folder dirs).2 ∧
    ex (RECORDING_PATH ++ "/" ++ name) = false ∧
    ∃ j, name = candName st j ++ extn ∧
      ∀ m, m < j → ex (RECORDING_PATH ++ "/" ++ candName st m ++ extn) = true := by
  have hdir : RECORDING_PATH ∈ (get_recording_folder dirs).2 := by
    by_cases hmem : RECORDING_PATH ∈ dirs
    · simp [get_recording_folder, hmem]
    · simp [get_recording_folder, hmem]
  rw [get_unique_filename] at h
  obtain ⟨j, _, hname, hfree, hall⟩ :=
    gutf_loop_spec ex RECORDING_PATH st extn fuel 0 name h
  refine ⟨hdir, ?_, j, hname, fun m hmj => hall m (Nat.zero_le m) hmj⟩
  rw [hname, ← String.append_assoc]
  exact hfree

/-- Witness for C9 at a concrete input: with only `rec.avi` existing, the
generator returns `rec_1.avi`, which does not collide. -/
theorem C9_unique_filename_witness :
    RECORDING_PATH ∈ (get_recording_folder []).2 ∧
    exOneFile (RECORDING_PATH ++ "/" ++ "rec_1.avi") = false ∧
    ∃ j, "rec_1.avi" = candName "rec" j ++ ".avi" ∧
      ∀ m, m < j → exOneFile (RECORDING_PATH ++ "/" ++ candName "rec" m ++ ".avi") = true :=
  C9_unique_filename exOneFile [] "rec" ".avi" 3 "rec_1.avi" (by decide)

end BehaviourRecognition
